import Mathlib

/-!
# Verification of the nSPOT spot lifecycle / deduplication engine

Shallow embedding of `src/main.go` (the variant containing `SpotNotFoundError`,
`addSpot`, `removeSpot`, `cleanupSpots`, `getBand`, i.e. the authoritative
version cited by the spec).  Go `float64` frequencies are embedded as `ℚ`
(the band classifier and the registry only compare and divide frequencies,
and all table thresholds as well as all regex-matched decimal inputs are
rationals, so no rounding behaviour is lost for the properties treated here).
Go `time.Time`/`time.Duration` are embedded as `Int` nanoseconds.  The radio
RPC client `fc.SendAndWait` is embedded as an oracle `Env : RpcCmd → CmdResult`;
commands are kept structured rather than formatted to strings.
-/

namespace NSpot

/-- Result of a radio RPC call: `flexclient.CmdResult` (`Error uint32`,
`Message string`). -/
structure CmdResult where
  error : Nat
  message : String
deriving DecidableEq, Repr

/-- `const SpotNotFoundError = 0x500000BC` (main.go line 145). -/
def SpotNotFoundError : Nat := 0x500000BC

/-- The field payload shared by `spot add` and `spot set` commands:
`rx_freq=%f callsign=%s spotter_callsign=%s comment=%s lifetime_seconds=%d`
(main.go line 265).  `rxFreq` is in MHz (`freqKhz/1000.0`). -/
structure RpcFields where
  rxFreq : ℚ
  callsign : String
  spotterCallsign : String
  comment : String
  lifetimeSeconds : Int
deriving DecidableEq, Repr

/-- The three radio commands the program issues: `spot add <fields>`,
`spot set <id> <fields>`, `spot remove <id>`. -/
inductive RpcCmd where
  | add (fields : RpcFields)
  | set (id : Int) (fields : RpcFields)
  | remove (id : Int)
deriving DecidableEq, Repr

/-- The radio RPC client, `fc.SendAndWait`, as a response oracle. -/
abbrev Env := RpcCmd → CmdResult

/-- `type spotKey struct { freq string; call string }` (main.go 225-228). -/
structure SpotKey where
  freq : String
  call : String
deriving DecidableEq, Repr

/-- `type spot struct { id int; expires time.Time }` (main.go 230-233). -/
structure Spot where
  id : Int
  expires : Int
deriving DecidableEq, Repr

/-- `var spotIds = map[spotKey]spot{}` (main.go 235), as a lookup function. -/
abbrev Registry := SpotKey → Option Spot

/-- Log events the registry operations can emit (`log.Error()` calls). -/
inductive LogEvent where
  | rpcError (code : Nat) (message : String)
  | atoiError (message : String)
  | parseFloatError (text : String)
deriving DecidableEq, Repr

/-- Outcome of one registry operation: the new registry, the RPC commands
issued (in order), and the error-log lines emitted. -/
structure StepResult where
  registry : Registry
  cmds : List RpcCmd
  logs : List LogEvent

/-- Go map store `spotIds[key] = v`. -/
def updateReg (reg : Registry) (key : SpotKey) (v : Spot) : Registry :=
  fun k => if k = key then some v else reg k

/-- Go map `delete(spotIds, key)`. -/
def eraseReg (reg : Registry) (key : SpotKey) : Registry :=
  fun k => if k = key then none else reg k

/-! ## Band classifier (`bandEdges`, `getBand`, main.go 190-223) -/

/-- `type bandEdge struct { minFreq float64; name string }` (main.go 190-193). -/
structure BandEdge where
  minFreq : ℚ
  name : String
deriving DecidableEq, Repr

/-- `var bandEdges = []bandEdge{...}` (main.go 195-215). -/
def bandEdges : List BandEdge :=
  [⟨0, "LFMF"⟩, ⟨1800, "160m"⟩, ⟨3500, "80m"⟩, ⟨5000, "60m"⟩, ⟨7000, "40m"⟩,
   ⟨10000, "30m"⟩, ⟨14000, "20m"⟩, ⟨18000, "17m"⟩, ⟨21000, "15m"⟩,
   ⟨24890, "12m"⟩, ⟨26000, "11m"⟩, ⟨28000, "10m"⟩, ⟨50000, "6m"⟩,
   ⟨144000, "2m"⟩, ⟨220000, "125cm"⟩, ⟨420000, "70cm"⟩, ⟨900000, "900M"⟩,
   ⟨1240000, "1240M"⟩, ⟨2300000, "microwave"⟩]

/-- The loop of `getBand`: `i := 0; for i < len(bandEdges)-1 && freq >=
bandEdges[i+1].minFreq { i++ }` — advance past every next edge whose
threshold the frequency reaches. -/
def bandScan (freq : ℚ) : BandEdge → List BandEdge → BandEdge
  | e, [] => e
  | e, e2 :: rest => if e2.minFreq ≤ freq then bandScan freq e2 rest else e

/-- `func getBand(freq float64) string` (main.go 217-223). -/
def getBand (freq : ℚ) : String :=
  match bandEdges with
  | [] => ""
  | e :: rest => (bandScan freq e rest).name

/-- Modelled from the spec: "returns the label of the greatest threshold ≤
freqKHz", with inputs below the first edge mapping to the lowest-band label. -/
def classifySpec (freq : ℚ) : String :=
  ((bandEdges.filter (fun e => decide (e.minFreq ≤ freq))).getLastD
    (bandEdges.headD ⟨0, ""⟩)).name

/-! ## Numeric parsing (`strconv.Atoi`, `strconv.ParseFloat`) -/

/-- Decimal digits to a natural number. -/
def digitsToNat (l : List Char) : Nat :=
  l.foldl (fun a c => 10 * a + (c.toNat - 48)) 0

/-- A non-empty all-digit run, or failure. -/
def parseDigits (l : List Char) : Option Nat :=
  if l.isEmpty then none
  else if l.all Char.isDigit then some (digitsToNat l) else none

/-- `strconv.Atoi`: optional sign followed by a non-empty digit run spanning
the whole string (the int64 range check is dropped; ids stay small). -/
def atoiGo (s : String) : Option Int :=
  match s.data with
  | [] => none
  | '+' :: rest => (parseDigits rest).map (fun n => (n : Int))
  | '-' :: rest => (parseDigits rest).map (fun n => -(n : Int))
  | l => (parseDigits l).map (fun n => (n : Int))

/-- `strconv.ParseFloat` restricted to the character set `[0-9.]` — the
language of the spot pattern's frequency capture group, the only strings the
program ever passes to it.  Go accepts such a string exactly when it has at
least one digit and at most one dot ("1.2.3", "." fail; "1.", ".5" parse);
the value is the exact decimal, embedded in `ℚ`. -/
def parseFloatDD (s : String) : Option ℚ :=
  let l := s.data
  if l.all (fun c => c.isDigit || c == '.') && l.any Char.isDigit
      && decide (l.count '.' ≤ 1) then
    let ip := l.takeWhile Char.isDigit
    match l.dropWhile Char.isDigit with
    | [] => some ((digitsToNat ip : ℚ))
    | _ :: fp => some ((digitsToNat ip : ℚ) + (digitsToNat fp : ℚ) / (10 : ℚ) ^ fp.length)
  else none

/-! ## Registry operations (`addSpot`, `removeSpot`, `cleanupSpots`,
`sendToFlex`, main.go 237-311) -/

/-- Runtime configuration: `cfg.OnePerBand`, `cfg.QRT`, `cfg.Timeout`
(nanoseconds, a Go `time.Duration`). -/
structure Config where
  onePerBand : Bool
  qrt : Bool
  timeout : Int
deriving DecidableEq, Repr

/-- `lifetimeSecs := int(cfg.Timeout / time.Second)` (main.go 264). -/
def lifetimeSecsOf (cfg : Config) : Int := cfg.timeout / 1000000000

/-- The field payload built at main.go 265. -/
def mkFields (cfg : Config) (spotCall : String) (freqKhz : ℚ)
    (dxCall comment : String) : RpcFields :=
  ⟨freqKhz / 1000, dxCall, spotCall, comment, lifetimeSecsOf cfg⟩

/-- `func addSpot(...)` (main.go 263-291).  Mirrors the Go control flow:
lookup; if present, `spot set <id>`; if absent or the set came back with
`SpotNotFoundError`, `spot add`; a non-zero final error is logged and the
operation abandoned; otherwise the entry is stored with expiry `now +
cfg.Timeout` — and, exactly as in the source, the id is re-parsed from the
response (`strconv.Atoi(res.Message)`) only when the key was absent
(`if !existed`), so the not-found fallback path keeps the old `sp.id`. -/
def addSpot (env : Env) (cfg : Config) (reg : Registry) (key : SpotKey)
    (spotCall : String) (freqKhz : ℚ) (dxCall comment : String)
    (now : Int) : StepResult :=
  let fields := mkFields cfg spotCall freqKhz dxCall comment
  match reg key with
  | some sp =>
    let res := env (.set sp.id fields)
    if res.error = SpotNotFoundError then
      let res2 := env (.add fields)
      if res2.error ≠ 0 then
        ⟨reg, [.set sp.id fields, .add fields], [.rpcError res2.error res2.message]⟩
      else
        ⟨updateReg reg key ⟨sp.id, now + cfg.timeout⟩,
          [.set sp.id fields, .add fields], []⟩
    else if res.error ≠ 0 then
      ⟨reg, [.set sp.id fields], [.rpcError res.error res.message]⟩
    else
      ⟨updateReg reg key ⟨sp.id, now + cfg.timeout⟩, [.set sp.id fields], []⟩
  | none =>
    let res := env (.add fields)
    if res.error ≠ 0 then
      ⟨reg, [.add fields], [.rpcError res.error res.message]⟩
    else
      match atoiGo res.message with
      | none => ⟨reg, [.add fields], [.atoiError res.message]⟩
      | some id => ⟨updateReg reg key ⟨id, now + cfg.timeout⟩, [.add fields], []⟩

/-- `func removeSpot(...)` (main.go 293-302): if the key is present, issue
`spot remove <id>` and log any error other than `SpotNotFoundError`; in
every case `delete(spotIds, key)`. -/
def removeSpot (env : Env) (reg : Registry) (key : SpotKey) : StepResult :=
  match reg key with
  | some sp =>
    let res := env (.remove sp.id)
    ⟨eraseReg reg key, [.remove sp.id],
      if res.error ≠ 0 ∧ res.error ≠ SpotNotFoundError then
        [.rpcError res.error res.message]
      else []⟩
  | none => ⟨eraseReg reg key, [], []⟩

/-- `func cleanupSpots()` (main.go 304-311): drop every entry with
`v.expires.Before(now)` (strict).  The source function never references the
radio client, so the embedding has no `Env` parameter: the sweep cannot
issue an RPC. -/
def cleanupSpots (reg : Registry) (now : Int) : Registry :=
  fun k =>
    match reg k with
    | some v => if v.expires < now then none else some v
    | none => none

/-- Go `fmt.Sprintf("%.0f", x)` rounds half to even; used for the
key scope when `one-per-band` is off (main.go 248). -/
def roundHalfEven (q : ℚ) : Int :=
  if q - ⌊q⌋ < 1/2 then ⌊q⌋
  else if 1/2 < q - ⌊q⌋ then ⌊q⌋ + 1
  else if ⌊q⌋ % 2 = 0 then ⌊q⌋ else ⌊q⌋ + 1

/-- The dedup key computed at main.go 244-249: band label when
`cfg.OnePerBand`, else the frequency rounded to the nearest kHz. -/
def computeKey (cfg : Config) (freqKhz : ℚ) (dxCall : String) : SpotKey :=
  if cfg.onePerBand then ⟨getBand freqKhz, dxCall⟩
  else ⟨toString (roundHalfEven freqKhz), dxCall⟩

/-- The regex capture groups of `spotPattern` that `sendToFlex` and the main
loop consume: `m[1]` spotter, `m[3]` frequency text, `m[5]` dx callsign,
`m[7]` comment, `m[9]` timestamp (groups 2,4,6,8 are whitespace used only
for the console echo). -/
structure SpotMatch where
  spotCall : String
  freq : String
  dxCall : String
  comment : String
  ts : String
deriving DecidableEq, Repr

/-- `func sendToFlex(...)` (main.go 237-261): parse the frequency (on
failure log and return without touching the registry), compute the key, and
dispatch to `removeSpot` or `addSpot`.  The four `strings.ReplaceAll(x, " ",
"\x7f")` calls at lines 251-254 discard their results (Go strings are
immutable and the return value is not assigned), so they are semantic
no-ops and the original field values flow into the command. -/
def sendToFlex (env : Env) (cfg : Config) (reg : Registry) (m : SpotMatch)
    (remove : Bool) (now : Int) : StepResult :=
  match parseFloatDD m.freq with
  | none => ⟨reg, [], [.parseFloatError m.freq]⟩
  | some freqKhz =>
    let key := computeKey cfg freqKhz m.dxCall
    if remove then removeSpot env reg key
    else addSpot env cfg reg key m.spotCall freqKhz m.dxCall m.comment now

/-- The sanitation the spec's field contract requires (replace each space
with the placeholder `"\x7f"`): `strings.ReplaceAll(s, " ", "\x7f")` with
the result kept. -/
def sanitizeField (s : String) : String :=
  String.mk (s.data.map (fun c => if c = ' ' then Char.ofNat 127 else c))

/-- Whether a string contains a literal space character. -/
def hasSpaceChar (s : String) : Bool := s.data.contains ' '

/-! ## QRT detection (`qrtPattern = \b(?i:QRT)\b`, main.go 315, 375) -/

/-- Go regexp word character for `\b`: ASCII `[0-9A-Za-z_]`. -/
def isWordCharGo (c : Char) : Bool := c.isAlphanum || c == '_'

/-- A word boundary holds to the left of the match position: either start of
text or a non-word character precedes. -/
def leftBoundaryOk : Option Char → Bool
  | none => true
  | some c => !isWordCharGo c

/-- Does `\b(?i:QRT)\b` match anchored at the head of this tail?  The three
leading characters case-fold to `q`,`r`,`t` (for these letters Unicode simple
folding coincides with ASCII lowercasing) and the following character, if
any, is a non-word character. -/
def qrtHeadMatch : List Char → Bool
  | c1 :: c2 :: c3 :: rest =>
    c1.toLower == 'q' && c2.toLower == 'r' && c3.toLower == 't' &&
      (match rest with
       | [] => true
       | c4 :: _ => !isWordCharGo c4)
  | _ => false

/-- Scan for an unanchored match of `\b(?i:QRT)\b`, carrying the previous
character for the left boundary test. -/
def qrtScan : Option Char → List Char → Bool
  | _, [] => false
  | prev, c :: rest =>
    (leftBoundaryOk prev && qrtHeadMatch (c :: rest)) || qrtScan (some c) rest

/-- `qrtPattern.MatchString` for `\b(?i:QRT)\b`. -/
def qrtMatch (s : String) : Bool := qrtScan none s.data

/-- Modelled from the spec: the comment "contains the token QRT as a whole
word, matched case-insensitively" — some decomposition exhibits a
three-character token case-folding to `qrt`, not preceded and not followed
by a word character. -/
def SpecQRTWord (s : String) : Prop :=
  ∃ pre w post : List Char,
    s.data = pre ++ w ++ post ∧
    w.map Char.toLower = ['q', 'r', 't'] ∧
    (∀ c, pre.getLast? = some c → isWordCharGo c = false) ∧
    (∀ c, post.head? = some c → isWordCharGo c = false)

/-- The removal classification at main.go 375:
`remove := cfg.QRT && qrtPattern.MatchString(m[7])`. -/
def removalDecision (qrtCfg : Bool) (comment : String) : Bool :=
  qrtCfg && qrtMatch comment

/-! ## The cluster-line loop (main.go 370-395) -/

/-- Console effects of processing one line (echoes, prompt changes). -/
inductive ConsoleOut where
  | spotEcho (m : SpotMatch) (remove : Bool)
  | setPrompt (p : String)
  | plain (line : String)
deriving DecidableEq, Repr

/-- `promptSuffixes := []string{">", "> ", ":", ": "}` (main.go 317). -/
def promptSuffixes : List String := [">", "> ", ":", ": "]

/-- `strings.TrimSuffix`. -/
def trimSuffixGo (line suf : String) : String :=
  if line.endsWith suf then line.dropRight suf.length else line

/-- The non-spot branch of the loop (main.go 379-392): the first prompt
suffix that matches turns the line into a prompt change; otherwise the line
is echoed verbatim.  The registry is never touched here. -/
def handleNonSpot (line : String) : ConsoleOut :=
  match promptSuffixes.find? (fun suf => line.endsWith suf) with
  | some suf => .setPrompt (trimSuffixGo line suf)
  | none => .plain line

/-- One iteration of the cluster-reader loop (main.go 372-393).  `parsed`
stands for `spotPattern.FindStringSubmatch(line)`: `some m` when the line is
a spot announcement, `none` otherwise (the regex engine itself is not
modelled; every claim treated here is conditional on the match outcome).
On a spot line: classify removal, echo, `sendToFlex`, then `cleanupSpots`. -/
def processLine (env : Env) (cfg : Config) (reg : Registry)
    (parsed : Option SpotMatch) (line : String) (now : Int) :
    StepResult × List ConsoleOut :=
  match parsed with
  | some m =>
    let remove := removalDecision cfg.qrt m.comment
    let r := sendToFlex env cfg reg m remove now
    (⟨cleanupSpots r.registry now, r.cmds, r.logs⟩, [.spotEcho m remove])
  | none => (⟨reg, [], []⟩, [handleNonSpot line])

/-! ## Same-key traffic (for the dedup invariant) -/

/-- One spot event for the key under study: the parsed fields and the time
at which the cluster line is processed. -/
structure AddEvent where
  spotCall : String
  freqKhz : ℚ
  dxCall : String
  comment : String
  time : Int
deriving DecidableEq, Repr

/-- The fields `addSpot` builds for an event. -/
def fieldsOf (cfg : Config) (e : AddEvent) : RpcFields :=
  mkFields cfg e.spotCall e.freqKhz e.dxCall e.comment

/-- One step of traffic touching the key: spot lines for other keys only
run `cleanupSpots` with respect to this key, so they are abstracted to the
sweep times they trigger (`cleanupsBefore`), followed by this key's event,
processed as in the loop: `addSpot` then `cleanupSpots` at the event time. -/
structure TrafficStep where
  cleanupsBefore : List Int
  event : AddEvent
deriving DecidableEq, Repr

/-- Process one same-key event the way the loop does: `addSpot`, then the
sweep at the event's time. -/
def stepAdd (env : Env) (cfg : Config) (key : SpotKey) (reg : Registry)
    (e : AddEvent) : Registry × List RpcCmd :=
  let r := addSpot env cfg reg key e.spotCall e.freqKhz e.dxCall e.comment e.time
  (cleanupSpots r.registry e.time, r.cmds)

/-- Run a sequence of traffic steps, collecting the RPC commands issued for
the key in order. -/
def runTraffic (env : Env) (cfg : Config) (key : SpotKey) :
    Registry → List TrafficStep → Registry × List RpcCmd
  | reg, [] => (reg, [])
  | reg, s :: rest =>
    let regA := s.cleanupsBefore.foldl (fun r u => cleanupSpots r u) reg
    let p := stepAdd env cfg key regA s.event
    let q := runTraffic env cfg key p.1 rest
    (q.1, p.2 ++ q.2)

/-- Liveness of the key's entry across the later steps: every sweep that
runs between an event at time `tPrev` and the next event happens no later
than `tPrev + T`, the freshly stored expiry — i.e. the entry is still live
when each subsequent event arrives. -/
def cleanupsBounded (T : Int) : Int → List TrafficStep → Prop
  | _, [] => True
  | tPrev, s :: rest =>
    (∀ u ∈ s.cleanupsBefore, u ≤ tPrev + T) ∧
      s.event.time ≤ tPrev + T ∧
      cleanupsBounded T s.event.time rest

/-! ## Theorems: band classifier -/

lemma filter_band_nil_of_lt (freq : ℚ) :
    ∀ (l : List BandEdge) (e : BandEdge),
      List.Chain (fun a b => a.minFreq ≤ b.minFreq) e l → freq < e.minFreq →
      l.filter (fun x => decide (x.minFreq ≤ freq)) = [] := by
  intro l
  induction l with
  | nil => intro e _ _; rfl
  | cons e2 rest ih =>
    intro e hch hlt
    rw [List.chain_cons] at hch
    have h2 : freq < e2.minFreq := lt_of_lt_of_le hlt hch.1
    have hne : ¬ (e2.minFreq ≤ freq) := not_le.mpr h2
    simp only [List.filter_cons, decide_eq_false hne]
    exact ih e2 hch.2 h2

lemma bandScan_eq_lastFilter (freq : ℚ) :
    ∀ (l : List BandEdge) (e : BandEdge),
      List.Chain (fun a b => a.minFreq ≤ b.minFreq) e l →
      bandScan freq e l =
        ((e :: l).filter (fun x => decide (x.minFreq ≤ freq))).getLastD e := by
  intro l
  induction l with
  | nil =>
    intro e _
    by_cases h : e.minFreq ≤ freq
    · simp [bandScan, List.filter_cons, decide_eq_true h]
    · simp [bandScan, List.filter_cons, decide_eq_false h]
  | cons e2 rest ih =>
    intro e hch
    rw [List.chain_cons] at hch
    by_cases h2 : e2.minFreq ≤ freq
    · have he : e.minFreq ≤ freq := le_trans hch.1 h2
      have hrec := ih e2 hch.2
      simp only [bandScan, if_pos h2] at hrec ⊢
      rw [hrec]
      simp only [List.filter_cons, decide_eq_true he, decide_eq_true h2,
        if_true, List.getLastD_cons]
    · have hlt : freq < e2.minFreq := not_le.mp h2
      have hnil := filter_band_nil_of_lt freq rest e2 hch.2 hlt
      simp only [bandScan, if_neg h2]
      simp only [List.filter_cons, decide_eq_false h2, hnil]
      by_cases he : e.minFreq ≤ freq
      · simp [decide_eq_true he]
      · simp [decide_eq_false he]

/-- C5: for every frequency, `getBand` returns the label of the table edge
with the greatest threshold ≤ the input (the spec-side `classifySpec`);
inputs of 0 and below the first edge map to the lowest-band label "LFMF";
the function is total (no error path). -/
theorem spec_c5_band_classifier :
    (∀ freq : ℚ, getBand freq = classifySpec freq) ∧
    getBand 0 = "LFMF" ∧
    (∀ freq : ℚ, freq < 0 → getBand freq = "LFMF") := by
  have hch : List.Chain (fun a b => a.minFreq ≤ b.minFreq)
      (⟨0, "LFMF"⟩ : BandEdge) bandEdges.tail := by
    norm_num [bandEdges, List.chain_cons]
  have main : ∀ freq : ℚ, getBand freq = classifySpec freq := by
    intro freq
    have key := bandScan_eq_lastFilter freq bandEdges.tail ⟨0, "LFMF"⟩ hch
    simp only [bandEdges, List.tail_cons] at key
    simp only [getBand, classifySpec, bandEdges, List.headD]
    rw [key]
  refine ⟨main, by decide, fun freq hneg => ?_⟩
  have h0 : ¬ ((1800 : ℚ) ≤ freq) := by intro h; linarith
  simp only [getBand, bandEdges, bandScan, if_neg h0]

/-- C5 witness: a negative frequency (below the first table edge) maps to
the lowest-band label, and 14025 kHz classifies consistently with the
greatest-threshold rule. -/
theorem spec_c5_band_classifier_witness :
    (-5 : ℚ) < 0 ∧ getBand (-5) = "LFMF" ∧ getBand 14025 = classifySpec 14025 :=
  ⟨by norm_num, spec_c5_band_classifier.2.2 (-5) (by norm_num),
    spec_c5_band_classifier.1 14025⟩

/-! ## Theorems: QRT whole-word detection -/

/-- The character governing the left word-boundary test at a match position:
the last character of the prefix if there is one, else the character (if
any) preceding the whole scanned tail. -/
def firstSome : Option Char → Option Char → Option Char
  | some c, _ => some c
  | none, o => o

lemma firstSome_none (o : Option Char) : firstSome o none = o := by
  cases o <;> rfl

lemma firstSome_cons (c : Char) (pre : List Char) (o : Option Char) :
    firstSome ((c :: pre).getLast?) o = firstSome pre.getLast? (some c) := by
  cases h : pre.getLast? with
  | none =>
    have hnil : pre = [] := by simpa using h
    subst hnil; rfl
  | some d =>
    have hc : (c :: pre).getLast? = some d := by
      cases pre with
      | nil => simp at h
      | cons x xs => rw [List.getLast?_cons_cons]; exact h
    simp [firstSome, hc, h]

lemma leftOk_iff (o : Option Char) :
    leftBoundaryOk o = true ↔ ∀ c, o = some c → isWordCharGo c = false := by
  cases o with
  | none => simp [leftBoundaryOk]
  | some c => simp [leftBoundaryOk]

lemma qrtScan_iff : ∀ (l : List Char) (prev : Option Char),
    qrtScan prev l = true ↔
      ∃ pre w post : List Char, l = pre ++ w ++ post ∧
        w.map Char.toLower = ['q', 'r', 't'] ∧
        leftBoundaryOk (firstSome pre.getLast? prev) = true ∧
        (∀ c, post.head? = some c → isWordCharGo c = false) := by
  intro l
  induction l with
  | nil =>
    intro prev
    constructor
    · intro h; simp [qrtScan] at h
    · rintro ⟨pre, w, post, hdec, hw, -, -⟩
      have hw3 : w.length = 3 := by simpa using congrArg List.length hw
      have hlen := congrArg List.length hdec
      simp only [List.length_nil, List.length_append, hw3] at hlen
      omega
  | cons c rest ih =>
    intro prev
    simp only [qrtScan, Bool.or_eq_true, Bool.and_eq_true]
    constructor
    · rintro (⟨hL, hH⟩ | hrec)
      · rcases rest with _ | ⟨c2, rest'⟩
        · simp [qrtHeadMatch] at hH
        rcases rest' with _ | ⟨c3, rest2⟩
        · simp [qrtHeadMatch] at hH
        simp only [qrtHeadMatch, Bool.and_eq_true, beq_iff_eq] at hH
        obtain ⟨⟨⟨h1, h2⟩, h3⟩, h4⟩ := hH
        refine ⟨[], [c, c2, c3], rest2, by simp, by simp [h1, h2, h3], ?_, ?_⟩
        · simpa [firstSome] using hL
        · intro c4 hc4
          rcases rest2 with _ | ⟨d, rest3⟩
          · simp at hc4
          · simp only [List.head?_cons, Option.some.injEq] at hc4
            subst hc4
            simpa using h4
      · obtain ⟨pre, w, post, hdec, hw, hleft, hright⟩ := (ih (some c)).mp hrec
        refine ⟨c :: pre, w, post, by simp [hdec], hw, ?_, hright⟩
        rw [firstSome_cons]
        exact hleft
    · rintro ⟨pre, w, post, hdec, hw, hleft, hright⟩
      rcases pre with _ | ⟨d, pre'⟩
      · left
        obtain ⟨w1, w2, w3, rfl⟩ :=
          List.length_eq_three.mp (by simpa using congrArg List.length hw)
        simp only [List.nil_append, List.cons_append] at hdec
        injection hdec with hc hrest
        subst hc; subst hrest
        simp only [List.map_cons, List.map_nil] at hw
        injection hw with e1 hw'
        injection hw' with e2 hw''
        injection hw'' with e3 _
        constructor
        · simpa [firstSome] using hleft
        · simp only [qrtHeadMatch, Bool.and_eq_true, beq_iff_eq]
          refine ⟨⟨⟨e1, e2⟩, e3⟩, ?_⟩
          rcases post with _ | ⟨c4, post'⟩
          · rfl
          · have hc4 := hright c4 (by simp)
            simp [hc4]
      · right
        simp only [List.cons_append] at hdec
        injection hdec with hc hrest
        subst hc
        apply (ih (some c)).mpr
        refine ⟨pre', w, post, hrest, hw, ?_, hright⟩
        rw [firstSome_cons c pre' prev] at hleft
        exact hleft

lemma qrtMatch_iff_specWord (comment : String) :
    qrtMatch comment = true ↔ SpecQRTWord comment := by
  unfold qrtMatch SpecQRTWord
  rw [qrtScan_iff]
  constructor
  · rintro ⟨pre, w, post, h1, h2, h3, h4⟩
    rw [firstSome_none] at h3
    exact ⟨pre, w, post, h1, h2, (leftOk_iff _).mp h3, h4⟩
  · rintro ⟨pre, w, post, h1, h2, h3, h4⟩
    refine ⟨pre, w, post, h1, h2, ?_, h4⟩
    rw [firstSome_none]
    exact (leftOk_iff _).mpr h3

/-- C6: with the QRT-removal toggle enabled, a spot event is classified as a
removal request exactly when its comment contains "QRT" as a whole word,
case-insensitively; in particular "QRT", "qrt" and "Qrt" trigger removal
while "QRTY" and "SQRT" do not. -/
theorem spec_c6_qrt_whole_word :
    (∀ comment : String,
      removalDecision true comment = true ↔ SpecQRTWord comment) ∧
    removalDecision true "QRT" = true ∧
    removalDecision true "qrt" = true ∧
    removalDecision true "Qrt" = true ∧
    removalDecision true "QRTY" = false ∧
    removalDecision true "SQRT" = false := by
  refine ⟨fun comment => ?_, by decide, by decide, by decide, by decide, by decide⟩
  unfold removalDecision
  rw [Bool.true_and]
  exact qrtMatch_iff_specWord comment

/-- C6 witness: a concrete comment carrying "qrt" as a standalone word
satisfies the spec-side predicate, via the equivalence. -/
theorem spec_c6_qrt_whole_word_witness : SpecQRTWord "73 qrt tnx" :=
  (spec_c6_qrt_whole_word.1 "73 qrt tnx").mp (by decide)

/-! ## Concrete fixtures used by counterexamples and witnesses -/

/-- A sample dedup key. -/
def keyW : SpotKey := ⟨"20m", "W1XYZ"⟩

/-- A registry holding exactly one entry, at `keyW`. -/
def regOne (sp : Spot) : Registry := fun k => if k = keyW then some sp else none

/-- The empty registry (`map[spotKey]spot{}` at startup). -/
def emptyReg : Registry := fun _ => none

/-- Default-flag configuration with a 5-minute (300 s) timeout. -/
def cfg1 : Config := ⟨true, true, 300000000000⟩

/-- An environment that fails every RPC with a generic non-zero error. -/
def envErr : Env := fun _ => ⟨1, "generic failure"⟩

/-- An environment that answers every RPC with the not-found code. -/
def envNF : Env := fun _ => ⟨SpotNotFoundError, "not found"⟩

/-! ## Theorems: sweep (`cleanupSpots`) -/

/-- C3 counterexample: the claim says `sweep(now)` removes entries whose
`expiresAt` is *at or before* `now`, but `cleanupSpots` uses the strict
`v.expires.Before(now)`: an entry expiring exactly at `now` is retained. -/
theorem spec_c3_sweep_cex :
    regOne ⟨1, 10⟩ keyW = some ⟨1, 10⟩ ∧ (10 : Int) ≤ 10 ∧
    cleanupSpots (regOne ⟨1, 10⟩) 10 keyW = some ⟨1, 10⟩ := by
  refine ⟨by decide, le_refl _, by decide⟩

/-- C3 (amended): `sweep(now)` removes exactly the entries whose `expiresAt`
is strictly before `now`; entries with `expiresAt ≥ now` are retained
unchanged, and absent keys stay absent.  (`cleanupSpots` has no RPC channel
at all — the source function never references the radio client.) -/
theorem spec_c3_sweep_amended (reg : Registry) (now : Int) (k : SpotKey) :
    (∀ v, reg k = some v → v.expires < now → cleanupSpots reg now k = none) ∧
    (∀ v, reg k = some v → now ≤ v.expires → cleanupSpots reg now k = some v) ∧
    (reg k = none → cleanupSpots reg now k = none) := by
  refine ⟨fun v hv hlt => ?_, fun v hv hle => ?_, fun hv => ?_⟩
  · simp [cleanupSpots, hv, hlt]
  · simp [cleanupSpots, hv, not_lt.mpr hle]
  · simp [cleanupSpots, hv]

/-- C3 witness: an entry expired strictly before `now` is swept; one
expiring exactly at `now` is kept. -/
theorem spec_c3_sweep_amended_witness :
    cleanupSpots (regOne ⟨1, 10⟩) 11 keyW = none ∧
    cleanupSpots (regOne ⟨1, 10⟩) 10 keyW = some ⟨1, 10⟩ :=
  ⟨(spec_c3_sweep_amended (regOne ⟨1, 10⟩) 11 keyW).1 ⟨1, 10⟩ (by decide) (by decide),
   (spec_c3_sweep_amended (regOne ⟨1, 10⟩) 10 keyW).2.1 ⟨1, 10⟩ (by decide) (by decide)⟩

/-! ## Theorems: removal (`removeSpot`) -/

/-- C4: `removeSpot` deletes the local entry unconditionally (whatever the
RPC outcome), leaves other keys alone, issues a `spot remove <id>` RPC
exactly when the entry was present, treats a not-found response as success
(no error log) and logs any other non-zero error. -/
theorem spec_c4_remove_unconditional (env : Env) (reg : Registry) (key : SpotKey) :
    (removeSpot env reg key).registry key = none ∧
    (∀ k, k ≠ key → (removeSpot env reg key).registry k = reg k) ∧
    (∀ sp, reg key = some sp →
      (removeSpot env reg key).cmds = [RpcCmd.remove sp.id] ∧
      ((env (RpcCmd.remove sp.id)).error = SpotNotFoundError →
        (removeSpot env reg key).logs = []) ∧
      ((env (RpcCmd.remove sp.id)).error ≠ 0 →
        (env (RpcCmd.remove sp.id)).error ≠ SpotNotFoundError →
        (removeSpot env reg key).logs =
          [LogEvent.rpcError (env (RpcCmd.remove sp.id)).error
            (env (RpcCmd.remove sp.id)).message])) ∧
    (reg key = none → (removeSpot env reg key).cmds = []) := by
  cases hv : reg key with
  | none =>
    refine ⟨?_, fun k hk => ?_, fun sp h => ?_, fun _ => ?_⟩
    · simp [removeSpot, hv, eraseReg]
    · simp [removeSpot, hv, eraseReg, hk]
    · exact absurd h (by simp)
    · simp [removeSpot, hv]
  | some sp0 =>
    refine ⟨?_, fun k hk => ?_, fun sp h => ?_, fun h => ?_⟩
    · simp [removeSpot, hv, eraseReg]
    · simp [removeSpot, hv, eraseReg, hk]
    · obtain rfl : sp0 = sp := by injection h
      refine ⟨by simp [removeSpot, hv], fun hnf => ?_, fun hnz hnnf => ?_⟩
      · have : ¬ ((env (RpcCmd.remove sp0.id)).error ≠ 0 ∧
            (env (RpcCmd.remove sp0.id)).error ≠ SpotNotFoundError) := by
          intro hcon; exact hcon.2 hnf
        simp [removeSpot, hv, if_neg this]
      · simp [removeSpot, hv]
        exact ⟨hnz, hnnf⟩
    · exact absurd h (by simp)

/-- C4 witness: with a present entry and a not-found RPC response, the entry
is deleted, one remove RPC went out, and nothing was logged. -/
theorem spec_c4_remove_unconditional_witness :
    (removeSpot envNF (regOne ⟨5, 100⟩) keyW).registry keyW = none ∧
    (removeSpot envNF (regOne ⟨5, 100⟩) keyW).cmds = [RpcCmd.remove 5] ∧
    (removeSpot envNF (regOne ⟨5, 100⟩) keyW).logs = [] := by
  have h := spec_c4_remove_unconditional envNF (regOne ⟨5, 100⟩) keyW
  have hp := h.2.2.1 ⟨5, 100⟩ (by decide)
  exact ⟨h.1, hp.1, hp.2.1 (by decide)⟩

/-! ## Theorems: failure paths leave the registry untouched -/

/-- C8: a frequency text that fails numeric parsing aborts the event with no
RPC and no registry mutation; and an add/update RPC that returns a non-zero
error other than the not-found code abandons the operation with the registry
exactly as before.  (The language hypothesis on the frequency text records
that the regex capture `[0-9.]+` is the domain on which `parseFloatDD`
models `strconv.ParseFloat`.) -/
theorem spec_c8_failure_frame (env : Env) (cfg : Config) (reg : Registry)
    (m : SpotMatch) (now : Int) :
    (∀ rem : Bool, m.freq.data.all (fun c => c.isDigit || c == '.') = true →
      parseFloatDD m.freq = none →
      (sendToFlex env cfg reg m rem now).registry = reg ∧
      (sendToFlex env cfg reg m rem now).cmds = []) ∧
    (∀ key spotCall freqKhz dxCall comment,
      (reg key = none →
        (env (RpcCmd.add (mkFields cfg spotCall freqKhz dxCall comment))).error ≠ 0 →
        (addSpot env cfg reg key spotCall freqKhz dxCall comment now).registry = reg) ∧
      (∀ sp, reg key = some sp →
        (env (RpcCmd.set sp.id (mkFields cfg spotCall freqKhz dxCall comment))).error ≠
          SpotNotFoundError →
        (env (RpcCmd.set sp.id (mkFields cfg spotCall freqKhz dxCall comment))).error ≠ 0 →
        (addSpot env cfg reg key spotCall freqKhz dxCall comment now).registry = reg) ∧
      (∀ sp, reg key = some sp →
        (env (RpcCmd.set sp.id (mkFields cfg spotCall freqKhz dxCall comment))).error =
          SpotNotFoundError →
        (env (RpcCmd.add (mkFields cfg spotCall freqKhz dxCall comment))).error ≠ 0 →
        (addSpot env cfg reg key spotCall freqKhz dxCall comment now).registry = reg)) := by
  constructor
  · intro rem _ hparse
    constructor <;> simp [sendToFlex, hparse]
  · intro key spotCall freqKhz dxCall comment
    refine ⟨fun h0 herr => ?_, fun sp hs hnnf hnz => ?_, fun sp hs hnf herr => ?_⟩
    · simp [addSpot, h0, herr]
    · simp [addSpot, hs, hnnf, hnz]
    · simp [addSpot, hs, hnf, herr]

/-- C8 witness: a malformed frequency ("1.2.3") mutates nothing, and a
failing update RPC against a present entry mutates nothing. -/
theorem spec_c8_failure_frame_witness :
    (sendToFlex envErr cfg1 (regOne ⟨5, 100⟩)
        ⟨"K1ABC", "1.2.3", "W1XYZ", "hi", "1234Z"⟩ false 0).registry =
      regOne ⟨5, 100⟩ ∧
    (addSpot envErr cfg1 (regOne ⟨5, 100⟩) keyW "K1ABC" 14025 "W1XYZ" "hi" 0).registry =
      regOne ⟨5, 100⟩ := by
  have h := spec_c8_failure_frame envErr cfg1 (regOne ⟨5, 100⟩)
    ⟨"K1ABC", "1.2.3", "W1XYZ", "hi", "1234Z"⟩ 0
  refine ⟨(h.1 false (by decide) (by simp [parseFloatDD])).1, ?_⟩
  exact (h.2 keyW "K1ABC" 14025 "W1XYZ" "hi").2.1 ⟨5, 100⟩ (by decide)
    (by decide) (by decide)

/-- Helper: when the key is absent, `addSpot` always issues exactly one
`spot add`, whatever the response. -/
lemma addSpot_absent_cmds (env : Env) (cfg : Config) (reg : Registry)
    (key : SpotKey) (sc : String) (fq : ℚ) (dx cm : String) (now : Int)
    (h0 : reg key = none) :
    (addSpot env cfg reg key sc fq dx cm now).cmds =
      [RpcCmd.add (mkFields cfg sc fq dx cm)] := by
  simp only [addSpot, h0]
  split
  · rfl
  · split <;> rfl

/-- C9: when the key is absent and the add RPC succeeds (error 0) but its
message does not parse as an integer, no entry is created — the registry is
unchanged, the failure is logged — and any later event for the same key
issues another add, never an update. -/
theorem spec_c9_unparsed_id (env : Env) (cfg : Config) (reg : Registry)
    (key : SpotKey) (spotCall : String) (freqKhz : ℚ) (dxCall comment : String)
    (now : Int)
    (h0 : reg key = none)
    (hok : (env (RpcCmd.add (mkFields cfg spotCall freqKhz dxCall comment))).error = 0)
    (hbad : atoiGo (env (RpcCmd.add (mkFields cfg spotCall freqKhz dxCall comment))).message
      = none) :
    (addSpot env cfg reg key spotCall freqKhz dxCall comment now).registry = reg ∧
    (addSpot env cfg reg key spotCall freqKhz dxCall comment now).logs =
      [LogEvent.atoiError
        (env (RpcCmd.add (mkFields cfg spotCall freqKhz dxCall comment))).message] ∧
    (∀ sc2 : String, ∀ fq2 : ℚ, ∀ dx2 cm2 : String, ∀ now2 : Int,
      (addSpot env cfg
          (addSpot env cfg reg key spotCall freqKhz dxCall comment now).registry
          key sc2 fq2 dx2 cm2 now2).cmds =
        [RpcCmd.add (mkFields cfg sc2 fq2 dx2 cm2)]) := by
  have hreg : (addSpot env cfg reg key spotCall freqKhz dxCall comment now).registry = reg := by
    simp [addSpot, h0, hok, hbad]
  refine ⟨hreg, ?_, fun sc2 fq2 dx2 cm2 now2 => ?_⟩
  · simp [addSpot, h0, hok, hbad]
  · rw [hreg]
    exact addSpot_absent_cmds env cfg reg key sc2 fq2 dx2 cm2 now2 h0

/-- An environment whose add responses succeed but carry a non-numeric
message body. -/
def envBadMsg : Env := fun c =>
  match c with
  | .add _ => ⟨0, "unparseable"⟩
  | _ => ⟨0, ""⟩

/-- C9 witness: concrete run of the unparseable-id scenario. -/
theorem spec_c9_unparsed_id_witness :
    (addSpot envBadMsg cfg1 emptyReg keyW "K1ABC" 14025 "W1XYZ" "hi" 0).registry =
      emptyReg ∧
    (addSpot envBadMsg cfg1
        (addSpot envBadMsg cfg1 emptyReg keyW "K1ABC" 14025 "W1XYZ" "hi" 0).registry
        keyW "K2DEF" 14030 "W1XYZ" "again" 50).cmds =
      [RpcCmd.add (mkFields cfg1 "K2DEF" 14030 "W1XYZ" "again")] := by
  have h := spec_c9_unparsed_id envBadMsg cfg1 emptyReg keyW "K1ABC" 14025 "W1XYZ"
    "hi" 0 rfl rfl (by decide)
  exact ⟨h.1, h.2.2 "K2DEF" 14030 "W1XYZ" "again" 50⟩

/-! ## Theorems: non-spot lines -/

/-- C10: a cluster line that is not a spot line (prompt-change hint or plain
passthrough) leaves the registry completely unchanged and issues no RPC and
no error log, whichever console branch it takes. -/
theorem spec_c10_nonspot_frame (env : Env) (cfg : Config) (reg : Registry)
    (line : String) (now : Int) :
    (processLine env cfg reg none line now).1.registry = reg ∧
    (processLine env cfg reg none line now).1.cmds = [] ∧
    (processLine env cfg reg none line now).1.logs = [] :=
  ⟨rfl, rfl, rfl⟩

/-! ## Theorems: the not-found fallback stores the stale id (code bug) -/

/-- An environment in which every update hits the not-found condition and
every add succeeds, assigning remote id 7. -/
def envStale : Env := fun c =>
  match c with
  | .set _ _ => ⟨SpotNotFoundError, "not found"⟩
  | .add _ => ⟨0, "7"⟩
  | .remove _ => ⟨0, ""⟩

/-- C2: the local entry holds stale id 5; the update returns the not-found
code; the fallback add is issued and succeeds with new remote id 7 — yet the
registry entry written afterwards still carries id 5, because the source
re-parses the id only under `if !existed`.  This contradicts the spec's
"the registry stores the id from that add" / "treating this key as if
absent". -/
theorem spec_c2_stale_id_bug :
    (addSpot envStale cfg1 (regOne ⟨5, 100⟩) keyW "K1ABC" 14025 "W1XYZ" "CQ" 200).cmds =
      [RpcCmd.set 5 (mkFields cfg1 "K1ABC" 14025 "W1XYZ" "CQ"),
       RpcCmd.add (mkFields cfg1 "K1ABC" 14025 "W1XYZ" "CQ")] ∧
    (envStale (RpcCmd.add (mkFields cfg1 "K1ABC" 14025 "W1XYZ" "CQ"))).error = 0 ∧
    atoiGo (envStale (RpcCmd.add (mkFields cfg1 "K1ABC" 14025 "W1XYZ" "CQ"))).message =
      some 7 ∧
    (addSpot envStale cfg1 (regOne ⟨5, 100⟩) keyW "K1ABC" 14025 "W1XYZ" "CQ"
        200).registry keyW =
      some ⟨5, 200 + cfg1.timeout⟩ ∧
    (5 : Int) ≠ 7 :=
  ⟨rfl, rfl, rfl, rfl, by decide⟩

/-! ## Theorems: spaces survive into the command fields (code bug) -/

/-- The comment carried by each issued command, for inspecting sanitation. -/
def cmdComment : RpcCmd → Option String
  | .add f => some f.comment
  | .set _ f => some f.comment
  | .remove _ => none

/-- An environment whose RPCs all succeed; adds assign remote id 1. -/
def envOk : Env := fun c =>
  match c with
  | .add _ => ⟨0, "1"⟩
  | _ => ⟨0, ""⟩

/-- A spot match whose comment contains interior spaces. -/
def mSpace : SpotMatch := ⟨"K1ABC", "14025.0", "W1XYZ", "CQ CQ DX", "1234Z"⟩

/-- C7: processing a spot whose comment has interior spaces puts the
comment into the add command verbatim, spaces included — the
`strings.ReplaceAll` results at main.go 251-254 are discarded — violating
the field sanitation contract, which would have produced the
placeholder-substituted string. -/
theorem spec_c7_space_bug :
    ((sendToFlex envOk cfg1 emptyReg mSpace false 0).cmds.filterMap cmdComment) =
      ["CQ CQ DX"] ∧
    hasSpaceChar "CQ CQ DX" = true ∧
    sanitizeField "CQ CQ DX" = "CQ\x7fCQ\x7fDX" ∧
    "CQ CQ DX" ≠ "CQ\x7fCQ\x7fDX" :=
  ⟨rfl, by decide, by decide, by decide⟩

/-! ## Theorems: deduplication across a live same-key event sequence -/

lemma cleanupSpots_keep (reg : Registry) (u : Int) (k : SpotKey) (sp : Spot)
    (h : reg k = some sp) (hu : u ≤ sp.expires) : cleanupSpots reg u k = some sp := by
  simp [cleanupSpots, h, not_lt.mpr hu]

lemma cleanupFold_keep (us : List Int) :
    ∀ (reg : Registry) (k : SpotKey) (sp : Spot), reg k = some sp →
      (∀ u ∈ us, u ≤ sp.expires) →
      (us.foldl (fun r u => cleanupSpots r u) reg) k = some sp := by
  induction us with
  | nil => intro reg k sp h _; exact h
  | cons u us ih =>
    intro reg k sp h hb
    simp only [List.foldl_cons]
    exact ih _ k sp (cleanupSpots_keep reg u k sp h (hb u (by simp)))
      (fun v hv => hb v (by simp [hv]))

lemma cleanupFold_none (us : List Int) :
    ∀ (reg : Registry) (k : SpotKey), reg k = none →
      (us.foldl (fun r u => cleanupSpots r u) reg) k = none := by
  induction us with
  | nil => intro reg k h; exact h
  | cons u us ih =>
    intro reg k h
    simp only [List.foldl_cons]
    exact ih _ k (by simp [cleanupSpots, h])

/-- A first event for an absent key: exactly one `spot add` goes out, and
(with a successful response whose message parses to `n`) afterwards the key
holds id `n` expiring at the event time plus the timeout. -/
lemma stepAdd_absent (env : Env) (cfg : Config) (key : SpotKey) (reg : Registry)
    (e : AddEvent) (n : Int)
    (h0 : reg key = none)
    (hok : (env (RpcCmd.add (fieldsOf cfg e))).error = 0)
    (hmsg : atoiGo (env (RpcCmd.add (fieldsOf cfg e))).message = some n)
    (hT : 0 ≤ cfg.timeout) :
    (stepAdd env cfg key reg e).2 = [RpcCmd.add (fieldsOf cfg e)] ∧
    (stepAdd env cfg key reg e).1 key = some ⟨n, e.time + cfg.timeout⟩ := by
  have hstep : addSpot env cfg reg key e.spotCall e.freqKhz e.dxCall e.comment e.time =
      ⟨updateReg reg key ⟨n, e.time + cfg.timeout⟩, [RpcCmd.add (fieldsOf cfg e)], []⟩ := by
    simp [addSpot, h0, fieldsOf] at hok hmsg ⊢
    simp [hok, hmsg]
  constructor
  · simp [stepAdd, hstep]
  · simp only [stepAdd, hstep]
    exact cleanupSpots_keep _ e.time key _ (by simp [updateReg]) (by simpa using hT)

/-- A subsequent event while the key is held with id `i`: exactly one
`spot set i` goes out, and (on a successful response) the key keeps id `i`
with refreshed expiry. -/
lemma stepAdd_present (env : Env) (cfg : Config) (key : SpotKey) (reg : Registry)
    (e : AddEvent) (i exp : Int)
    (h0 : reg key = some ⟨i, exp⟩)
    (hok : (env (RpcCmd.set i (fieldsOf cfg e))).error = 0)
    (hT : 0 ≤ cfg.timeout) :
    (stepAdd env cfg key reg e).2 = [RpcCmd.set i (fieldsOf cfg e)] ∧
    (stepAdd env cfg key reg e).1 key = some ⟨i, e.time + cfg.timeout⟩ := by
  have hnnf : (env (RpcCmd.set i (fieldsOf cfg e))).error ≠ SpotNotFoundError := by
    rw [hok]; decide
  have hstep : addSpot env cfg reg key e.spotCall e.freqKhz e.dxCall e.comment e.time =
      ⟨updateReg reg key ⟨i, e.time + cfg.timeout⟩, [RpcCmd.set i (fieldsOf cfg e)], []⟩ := by
    simp [addSpot, h0, fieldsOf] at hok hnnf ⊢
    simp [hok, hnnf, SpotNotFoundError]
  constructor
  · simp [stepAdd, hstep]
  · simp only [stepAdd, hstep]
    exact cleanupSpots_keep _ e.time key _ (by simp [updateReg]) (by simpa using hT)

/-- Tail of the dedup run: while the key is held with id `n` and every sweep
happens before the current expiry, each event issues exactly one
`spot set n`. -/
lemma runTraffic_sets (env : Env) (cfg : Config) (key : SpotKey) (n : Int)
    (hset : ∀ i f, (env (RpcCmd.set i f)).error = 0)
    (hT : 0 ≤ cfg.timeout) :
    ∀ (steps : List TrafficStep) (reg : Registry) (tPrev : Int),
      reg key = some ⟨n, tPrev + cfg.timeout⟩ →
      cleanupsBounded cfg.timeout tPrev steps →
      (runTraffic env cfg key reg steps).2 =
        steps.map (fun s2 => RpcCmd.set n (fieldsOf cfg s2.event)) := by
  intro steps
  induction steps with
  | nil => intro reg tPrev _ _; rfl
  | cons s rest ih =>
    intro reg tPrev hkey hb
    obtain ⟨hcb, -, hrest⟩ := hb
    have hfold : (s.cleanupsBefore.foldl (fun r u => cleanupSpots r u) reg) key =
        some ⟨n, tPrev + cfg.timeout⟩ :=
      cleanupFold_keep _ reg key _ hkey (fun u hu => hcb u hu)
    obtain ⟨hc, hr⟩ := stepAdd_present env cfg key _ s.event n (tPrev + cfg.timeout)
      hfold (hset _ _) hT
    simp only [runTraffic, List.map_cons]
    rw [hc, ih _ s.event.time hr hrest]
    rfl

/-- C1: for a sequence of same-key events that all arrive while the entry is
live (every intervening sweep, and each arrival, falls before the current
expiry), with the radio assigning id `n` on add and accepting updates, the
first event issues exactly one `spot add` and every subsequent event issues
exactly one `spot set n` — never a second add. -/
theorem spec_c1_dedup (env : Env) (cfg : Config) (key : SpotKey) (reg : Registry)
    (n : Int) (s : TrafficStep) (rest : List TrafficStep)
    (hadd : ∀ f, (env (RpcCmd.add f)).error = 0 ∧
      atoiGo (env (RpcCmd.add f)).message = some n)
    (hset : ∀ i f, (env (RpcCmd.set i f)).error = 0)
    (hT : 0 ≤ cfg.timeout)
    (h0 : reg key = none)
    (hlive : cleanupsBounded cfg.timeout s.event.time rest) :
    (runTraffic env cfg key reg (s :: rest)).2 =
      RpcCmd.add (fieldsOf cfg s.event) ::
        rest.map (fun s2 => RpcCmd.set n (fieldsOf cfg s2.event)) := by
  have h0' : (s.cleanupsBefore.foldl (fun r u => cleanupSpots r u) reg) key = none :=
    cleanupFold_none _ reg key h0
  obtain ⟨hc1, hr1⟩ := stepAdd_absent env cfg key _ s.event n h0'
    (hadd (fieldsOf cfg s.event)).1 (hadd (fieldsOf cfg s.event)).2 hT
  simp only [runTraffic]
  rw [hc1, runTraffic_sets env cfg key n hset hT rest _ s.event.time hr1 hlive]
  rfl

/-- An environment that assigns remote id 7 to adds and accepts updates. -/
def envSeven : Env := fun c =>
  match c with
  | .add _ => ⟨0, "7"⟩
  | _ => ⟨0, ""⟩

/-- First witness event. -/
def eventW1 : AddEvent := ⟨"K1ABC", 14025, "W1XYZ", "CQ", 0⟩

/-- Second witness event, 200 ns later, with an intervening sweep at 100. -/
def eventW2 : AddEvent := ⟨"K2DEF", 14030, "W1XYZ", "tnx", 200⟩

/-- Witness traffic: the first event with no preceding sweeps. -/
def stepW1 : TrafficStep := ⟨[], eventW1⟩

/-- Witness traffic: the second event, after a sweep at time 100. -/
def stepW2 : TrafficStep := ⟨[100], eventW2⟩

/-- C1 witness: concrete two-event run — one add, then one update with the
id the add returned. -/
theorem spec_c1_dedup_witness :
    (runTraffic envSeven cfg1 keyW emptyReg [stepW1, stepW2]).2 =
      RpcCmd.add (fieldsOf cfg1 stepW1.event) ::
        [stepW2].map (fun s2 => RpcCmd.set 7 (fieldsOf cfg1 s2.event)) :=
  spec_c1_dedup envSeven cfg1 keyW emptyReg 7 stepW1 [stepW2]
    (fun _ => ⟨rfl, rfl⟩) (fun _ _ => rfl) (by norm_num [cfg1]) rfl
    (by refine ⟨fun u hu => ?_, by norm_num [stepW1, stepW2, eventW1, eventW2, cfg1], trivial⟩
        simp [stepW2] at hu
        simp [hu, stepW1, eventW1, cfg1])

end NSpot
